import Mathlib

/-!
# Verification of the Quant-Risk-Lab fixed-income valuation and risk engine

Shallow embedding of `src/lib/pricer.py` and `src/lib/risk_engine.py`.

Conventions of the embedding:
* Prices, rates and PnL values are rationals (`ℚ`); the Python code computes
  in IEEE doubles, but every claim checked here is about the exact arithmetic
  the source expresses, and every concrete input below is chosen so that the
  float evaluation agrees qualitatively with the exact one.
* Calendar dates (`as_of_date`, `next_coupon_date`, `maturity_date`) are
  modelled at month granularity as integers (months since an arbitrary
  epoch); `relativedelta(months=k)` becomes integer addition, which is
  faithful for the ordering, counting and amount facts the claims state.
* A pandas `Series` row is the `Instrument` structure; the Python test
  `'yield_to_maturity' in instrument.index` becomes an `Option ℚ` field.
* The pandas reductions `diff`, `quantile`, `idxmin` and `mean` all skip
  the NaN head that `diff` produces, so the loss distribution is modelled
  as the list of defined differences.
-/

/-- Python `int(q)`: truncation toward zero. -/
def pyInt (q : ℚ) : ℤ :=
  if 0 ≤ q then ⌊q⌋ else -⌊-q⌋

/-- Instrument record: the fields of the portfolio row that the pricing and
risk functions read. `yieldToMaturityStored = some v` models a row whose
index contains a `yield_to_maturity` entry with value `v`. Dates are months
since an epoch. -/
structure Instrument where
  faceValue : ℚ
  couponRate : ℚ
  couponFrequency : ℕ
  yearsToMaturity : ℚ
  lastPrice : ℚ
  lastYield : ℚ
  yieldToMaturityStored : Option ℚ
  asOfDate : ℤ
  nextCouponDate : ℤ
  maturityDate : ℤ
deriving DecidableEq

/-- Present value of level coupons of `c` plus a redemption of `F`,
discounted at per-period rate `y` over `timeSteps` periods: the summation
shape shared by `bond_price_ytm` and the objective of `calculate_ytm` in
`src/lib/pricer.py`
(`sum([c / (1 + y) ** t for t in range(1, N + 1)]) + F / (1 + y) ** N`). -/
def presentValue (c F y : ℚ) (timeSteps : ℤ) : ℚ :=
  (Finset.range timeSteps.toNat).sum (fun i => c / (1 + y) ^ (i + 1)) +
    F / (1 + y) ^ timeSteps

/-- Embedding of `bond_price_ytm` (src/lib/pricer.py:46-73). Uses the
stored `yield_to_maturity` when the row has one, else the override
argument; `_time_steps = int(years_to_maturity * freq)`. -/
def bond_price_ytm (inst : Instrument) (yieldToMaturityOverride : ℚ) : ℚ :=
  let freq : ℚ := (inst.couponFrequency : ℚ)
  let yieldToMaturity : ℚ :=
    match inst.yieldToMaturityStored with
    | some v => v
    | none => yieldToMaturityOverride
  let coupon := inst.couponRate * inst.faceValue / freq
  let perPeriodYield := yieldToMaturity / freq
  let timeSteps := pyInt (inst.yearsToMaturity * freq)
  presentValue coupon inst.faceValue perPeriodYield timeSteps

/-- Embedding of `bond_price_diff` inside `calculate_ytm`
(src/lib/pricer.py:19-25): the residual that the Newton solve drives to
zero. Note the source truncates `years_to_maturity` to an int *before*
multiplying by the frequency (`periods = int(years_to_maturity) * freq`),
unlike `bond_price_ytm`. -/
def calc_ytm_objective (inst : Instrument) (ytm : ℚ) : ℚ :=
  let freq : ℚ := (inst.couponFrequency : ℚ)
  let periods : ℤ := pyInt inst.yearsToMaturity * inst.couponFrequency
  let couponPayment := inst.couponRate * inst.faceValue / freq
  inst.lastPrice - presentValue couponPayment inst.faceValue (ytm / freq) periods

/-- Coupon dates produced by the while-loop of `generate_cashflows`
(src/lib/pricer.py:89-94): starting at `d`, step forward `step` months
while the date does not exceed `maturityDate`. The Python loop does not
terminate for a nonpositive step; the embedding returns `[]` there (no
claim involves a coupon frequency above 12). -/
def couponDates (maturityDate step d : ℤ) : List ℤ :=
  if h : step ≤ 0 ∨ maturityDate < d then []
  else d :: couponDates maturityDate step (d + step)
termination_by (maturityDate + 1 - d).toNat
decreasing_by
  push_neg at h
  omega

/-- Embedding of `generate_cashflows` (src/lib/pricer.py:76-106),
restricted to the `(cashflow_date, cashflow)` columns the claims are about
(the time-in-years and interpolated-zero-rate columns are derived from the
same date list and an external curve). Each loop iteration appends a
coupon row of `face_value * coupon_rate` — the source does not divide by
the frequency — and after the loop a redemption row
`(maturity_date, face_value)` is appended. -/
def generate_cashflows (inst : Instrument) : List (ℤ × ℚ) :=
  let step : ℤ := pyInt (12 / (inst.couponFrequency : ℚ))
  (couponDates inst.maturityDate step inst.nextCouponDate).map
      (fun d => (d, inst.faceValue * inst.couponRate)) ++
    [(inst.maturityDate, inst.faceValue)]

/-- Result row of `bond_duration` (src/lib/pricer.py:129-130). -/
structure SensitivityResult where
  modified_duration : ℚ
  dv01 : ℚ
  convexity : ℚ
deriving DecidableEq

/-- Embedding of `bond_duration` (src/lib/pricer.py:109-130):
central-difference bump-and-reprice around `last_yield` with bump `dy`.
The source performs no validation of `last_price`. -/
def bond_duration (inst : Instrument) (dy : ℚ) : SensitivityResult :=
  let price := inst.lastPrice
  let ytm := inst.lastYield
  let price_minus := bond_price_ytm inst (ytm - dy)
  let price_plus := bond_price_ytm inst (ytm + dy)
  let modified_duration := (price_minus - price_plus) / (2 * price * dy)
  { modified_duration := modified_duration
    dv01 := modified_duration * (1 / 10000) * price
    convexity := (price_minus + price_plus - 2 * price) / (price * dy ^ 2) }

/-- Embedding of `series.diff(k)` restricted to its defined entries:
`x[i] - x[i-k]` for `k ≤ i < length` (the first `k` entries are NaN in
pandas and are skipped by every downstream aggregation in
`calculate_loss`). -/
def diffSeries (k : ℕ) (xs : List ℚ) : List ℚ :=
  (xs.drop k).zipWith (· - ·) xs

/-- Loss distribution built by `calculate_loss`
(src/lib/risk_engine.py:105-111): the PnL column itself when `n_day` is 1,
else `diff(10)` — the differencing window is the literal constant 10. -/
def lossDistribution (nDay : ℕ) (xs : List ℚ) : List ℚ :=
  if nDay = 1 then xs else diffSeries 10 xs

/-- Stable insertion into a sorted list: helper for the ascending sort that
the empirical quantile performs on the sample. -/
def insertSorted (x : ℚ) : List ℚ → List ℚ
  | [] => [x]
  | y :: t => if x ≤ y then x :: y :: t else y :: insertSorted x t

/-- Ascending sort of the sample, as the quantile computation sorts its
input. -/
def sortQ (xs : List ℚ) : List ℚ := xs.foldr insertSorted []

/-- Embedding of `pandas.Series.quantile(q)` with the default linear
interpolation: with the ascending-sorted sample `s` of size `n` and
`h = q*(n-1)`, returns `s[⌊h⌋] + (h - ⌊h⌋) * (s[⌊h⌋+1] - s[⌊h⌋])`. -/
def quantileLinear (xs : List ℚ) (q : ℚ) : ℚ :=
  let s := sortQ xs
  let h : ℚ := q * ((s.length : ℚ) - 1)
  let i : ℕ := (⌊h⌋).toNat
  let lo := s.getD i 0
  let hi := s.getD (i + 1) lo
  lo + (h - (⌊h⌋ : ℚ)) * (hi - lo)

/-- Embedding of
`_data.loc[(_data[pnl_col] - var_value).abs().idxmin(), pnl_col]`
(src/lib/risk_engine.py:115): the element of the series nearest to `v`,
first occurrence winning ties, as `idxmin` does. -/
def closestValue (v : ℚ) : List ℚ → ℚ
  | [] => 0
  | [x] => x
  | x :: y :: t =>
    let c := closestValue v (y :: t)
    if |x - v| ≤ |c - v| then x else c

/-- Arithmetic mean of a series, as `series.mean()`. -/
def meanQ (xs : List ℚ) : ℚ := xs.sum / (xs.length : ℚ)

/-- The two loss-calculation approaches dispatched on
`self.loss_calculation_approach`. -/
inductive LossApproach where
  | varType
  | expectedShortfall
deriving DecidableEq

/-- Embedding of `TailLoss.calculate_loss` (src/lib/risk_engine.py:103-129),
with the PnL column given as a list and the percentile `p` already divided
by 100. Returns the scalar loss figure and the supporting-evidence rows
(`_data.loc[_data[pnl_col] == closest_value_to_var]`), each row reduced to
its PnL value. -/
def calculate_loss (approach : LossApproach) (nDay : ℕ) (p : ℚ)
    (pnl : List ℚ) : ℚ × List ℚ :=
  let d := lossDistribution nDay pnl
  let varValue := quantileLinear d (1 - p)
  let closest := closestValue varValue d
  let evidence := d.filter (fun x => x = closest)
  match approach with
  | .varType => (varValue, evidence)
  | .expectedShortfall => (meanQ (d.filter (fun x => x ≤ closest)), evidence)

/-- The 2-year, 5% semiannual-coupon, $100-face bond of the spec's
cashflow-completeness scenario: as-of at month 0, first coupon at month 6,
maturity at month 24. -/
def bond2y : Instrument :=
  { faceValue := 100
    couponRate := 1 / 20
    couponFrequency := 2
    yearsToMaturity := 2
    lastPrice := 100
    lastYield := 1 / 20
    yieldToMaturityStored := none
    asOfDate := 0
    nextCouponDate := 6
    maturityDate := 24 }

/-- A bond with less than one whole coupon period
(`years_to_maturity × coupon_frequency = 4/5 < 1`). -/
def shortBond : Instrument :=
  { faceValue := 100
    couponRate := 1 / 20
    couponFrequency := 2
    yearsToMaturity := 2 / 5
    lastPrice := 100
    lastYield := 1 / 20
    yieldToMaturityStored := none
    asOfDate := 0
    nextCouponDate := 3
    maturityDate := 5 }

/-- A copy of the 2-year bond whose row stores a `yield_to_maturity`
entry, as the rows priced by the historical pipeline do. -/
def storedBond : Instrument :=
  { bond2y with yieldToMaturityStored := some (3 / 100) }

/-- A copy of the 2-year bond with a negative observed price. -/
def negBond : Instrument :=
  { bond2y with lastPrice := -100 }

/-! ## Loop lemmas for the cashflow schedule -/

theorem couponDates_stop (m s d : ℤ) (h : m < d) : couponDates m s d = [] := by
  rw [couponDates]
  exact dif_pos (Or.inr h)

theorem couponDates_step (m s d : ℤ) (hs : 0 < s) (h : d ≤ m) :
    couponDates m s d = d :: couponDates m s (d + s) := by
  rw [couponDates]
  rw [dif_neg]
  push_neg
  omega

example : generate_cashflows bond2y =
    [(6, 5), (12, 5), (18, 5), (24, 5), (24, 100)] := by
  norm_num [generate_cashflows, couponDates_step, couponDates_stop, pyInt,
    bond2y]

example : bond_price_ytm bond2y (1 / 20) = 100 := by
  have h4 : ((4 : ℤ)).toNat = 4 := rfl
  norm_num [bond_price_ytm, presentValue, pyInt, bond2y, h4,
    Finset.sum_range_succ, Finset.sum_range_zero]

example : calculate_loss .varType 1 (3 / 4) [0, 8] = (2, [0]) := by
  have hq : quantileLinear [0, 8] (1 / 4) = 2 := by
    norm_num [quantileLinear, sortQ, insertSorted]
  have hc : closestValue 2 [0, 8] = 0 := by
    norm_num [closestValue, abs_of_nonneg, abs_of_nonpos]
  norm_num [calculate_loss, lossDistribution, hq, hc, List.filter_cons,
    decide_eq_true_eq]

example : calculate_loss .expectedShortfall 1 (13 / 16) [0, 8, 8, 8] =
    (6, [8, 8, 8]) := by
  have hq : quantileLinear [0, 8, 8, 8] (3 / 16) = 9 / 2 := by
    norm_num [quantileLinear, sortQ, insertSorted]
  have hc : closestValue (9 / 2) [0, 8, 8, 8] = 8 := by
    norm_num [closestValue, abs_of_nonneg, abs_of_nonpos]
  norm_num [calculate_loss, lossDistribution, hq, hc, meanQ,
    List.filter_cons, decide_eq_true_eq]

/-! ## Helper lemmas -/

theorem closestValue_mem (v : ℚ) :
    ∀ xs : List ℚ, xs ≠ [] → closestValue v xs ∈ xs
  | [], h => absurd rfl h
  | [x], _ => by simp [closestValue]
  | x :: y :: t, _ => by
    have hm := closestValue_mem v (y :: t) (by simp)
    simp only [closestValue]
    rcases le_or_lt |x - v| |closestValue v (y :: t) - v| with h | h
    · rw [if_pos h]
      exact List.mem_cons_self x (y :: t)
    · rw [if_neg (not_le.mpr h)]
      exact List.mem_cons_of_mem x hm

theorem meanQ_le_of_forall_le {xs : List ℚ} {c : ℚ} (hne : xs ≠ [])
    (h : ∀ x ∈ xs, x ≤ c) : meanQ xs ≤ c := by
  have hlen : 0 < (xs.length : ℚ) := by
    have := List.length_pos.mpr hne
    exact_mod_cast this
  rw [meanQ, div_le_iff₀ hlen]
  calc xs.sum ≤ xs.length • c := List.sum_le_card_nsmul xs c h
    _ = c * xs.length := by rw [nsmul_eq_mul]; ring

theorem couponDates_le (m s d x : ℤ) (hx : x ∈ couponDates m s d) : x ≤ m := by
  by_cases h : s ≤ 0 ∨ m < d
  · rw [couponDates, dif_pos h] at hx
    cases hx
  · push_neg at h
    rw [couponDates_step m s d (by omega) h.2, List.mem_cons] at hx
    rcases hx with rfl | hx
    · exact h.2
    · exact couponDates_le m s (d + s) x hx
termination_by (m + 1 - d).toNat
decreasing_by omega

theorem couponDates_chain (m s d : ℤ) (hs : 0 < s) :
    List.Chain' (· < ·) (couponDates m s d) := by
  by_cases h : m < d
  · rw [couponDates_stop m s d h]
    exact List.chain'_nil
  · push_neg at h
    rw [couponDates_step m s d hs h]
    have ih := couponDates_chain m s (d + s) hs
    rw [List.chain'_cons']
    refine ⟨?_, ih⟩
    intro y hy
    by_cases h2 : m < d + s
    · rw [couponDates_stop m s (d + s) h2] at hy
      cases hy
    · push_neg at h2
      rw [couponDates_step m s (d + s) hs h2] at hy
      simp only [List.head?_cons, Option.mem_def, Option.some.injEq] at hy
      omega
termination_by (m + 1 - d).toNat
decreasing_by omega

theorem presentValue_strictAnti (c F : ℚ) (hc : 0 ≤ c) (hF : 0 < F)
    {N : ℤ} (hN : 1 ≤ N) {y1 y2 : ℚ} (h1 : 0 < 1 + y1) (h12 : y1 < y2) :
    presentValue c F y2 N < presentValue c F y1 N := by
  have h2 : 0 < 1 + y2 := by linarith
  have hd : 1 + y1 < 1 + y2 := by linarith
  have hzpow1 : (1 + y1) ^ N = (1 + y1) ^ N.toNat := by
    rw [← zpow_natCast]
    congr 1
    omega
  have hzpow2 : (1 + y2) ^ N = (1 + y2) ^ N.toNat := by
    rw [← zpow_natCast]
    congr 1
    omega
  unfold presentValue
  rw [hzpow1, hzpow2]
  apply add_lt_add_of_le_of_lt
  · apply Finset.sum_le_sum
    intro i _
    have hp1 : (0 : ℚ) < (1 + y1) ^ (i + 1) := pow_pos h1 _
    have hp2 : (0 : ℚ) < (1 + y2) ^ (i + 1) := pow_pos h2 _
    rw [div_le_div_iff₀ hp2 hp1]
    have hpow : (1 + y1) ^ (i + 1) ≤ (1 + y2) ^ (i + 1) :=
      pow_le_pow_left₀ (le_of_lt h1) (le_of_lt hd) _
    exact mul_le_mul_of_nonneg_left hpow hc
  · have hlt : (1 + y1) ^ N.toNat < (1 + y2) ^ N.toNat :=
      pow_lt_pow_left₀ hd (le_of_lt h1) (by omega)
    exact div_lt_div_of_pos_left hF (pow_pos h1 _) hlt

theorem bond_price_ytm_strictAnti (inst : Instrument)
    (hstored : inst.yieldToMaturityStored = none)
    (hf : 0 < inst.couponFrequency) (hc : 0 ≤ inst.couponRate)
    (hF : 0 < inst.faceValue)
    (hN : 1 ≤ pyInt (inst.yearsToMaturity * inst.couponFrequency))
    {y1 y2 : ℚ} (h1 : 0 < 1 + y1 / (inst.couponFrequency : ℚ))
    (h12 : y1 < y2) :
    bond_price_ytm inst y2 < bond_price_ytm inst y1 := by
  have hfq : (0 : ℚ) < (inst.couponFrequency : ℚ) := by exact_mod_cast hf
  simp only [bond_price_ytm, hstored]
  apply presentValue_strictAnti
  · exact div_nonneg (mul_nonneg hc (le_of_lt hF)) (le_of_lt hfq)
  · exact hF
  · exact hN
  · exact h1
  · exact (div_lt_div_iff_of_pos_right hfq).mpr h12

/-! ## Claim C1 — coupon cashflow amount -/

/-- C1 (code bug). The claim (and the spec's own pricing convention, used
by `bond_price_ytm` and `calculate_ytm`) says each coupon cashflow is
`coupon_rate × face_value / frequency` — $2.50 for the 2-year, 5%
semiannual, $100-face bond. `generate_cashflows` instead emits
`face_value * coupon_rate` with no division by the frequency: on that bond
it produces 4 coupon rows of $5.00 plus the terminal $100 redemption at
maturity. -/
theorem C1_coupon_amount_code_bug :
    generate_cashflows bond2y =
      [(6, 5), (12, 5), (18, 5), (24, 5), (24, 100)] ∧
    bond2y.couponRate * bond2y.faceValue / (bond2y.couponFrequency : ℚ) =
      5 / 2 ∧
    (5 : ℚ) ≠ 5 / 2 := by
  refine ⟨?_, by norm_num [bond2y], by norm_num⟩
  norm_num [generate_cashflows, couponDates_step, couponDates_stop, pyInt,
    bond2y]

/-! ## Claim C4 — horizon handling in the loss distribution -/

/-- C4 (confirmed). For horizon 1 the loss distribution is the PnL series
itself; for every horizon `n > 1` it is the series differenced over the
fixed constant window 10 — the same distribution for every such `n`,
independent of the requested horizon. -/
theorem C4_loss_distribution_fixed_window (xs : List ℚ) :
    lossDistribution 1 xs = xs ∧
    ∀ n : ℕ, 1 < n → lossDistribution n xs = diffSeries 10 xs := by
  refine ⟨by simp [lossDistribution], ?_⟩
  intro n hn
  rw [lossDistribution, if_neg (by omega)]

/-- C4 witness: the theorem applied to a concrete series at horizons 1
and 7. -/
theorem C4_loss_distribution_fixed_window_witness :
    lossDistribution 1 [(1 : ℚ), 2, 3] = [1, 2, 3] ∧
    lossDistribution 7 [(1 : ℚ), 2, 3] = diffSeries 10 [1, 2, 3] :=
  ⟨(C4_loss_distribution_fixed_window [1, 2, 3]).1,
    (C4_loss_distribution_fixed_window [1, 2, 3]).2 7 (by decide)⟩

/-! ## Claim C9 — stored yield freezes the bump-and-reprice -/

/-- C9 (confirmed). If the instrument row stores a `yield_to_maturity`
entry, `bond_price_ytm` prices from the stored value and silently ignores
the override argument, so in `bond_duration` both bumped prices equal the
unbumped price and the modified duration and DV01 are zero for every bump
size `dy`. -/
theorem C9_stored_ytm_zero_duration (inst : Instrument) (dy v : ℚ)
    (hstored : inst.yieldToMaturityStored = some v) :
    bond_price_ytm inst (inst.lastYield - dy) =
      bond_price_ytm inst inst.lastYield ∧
    bond_price_ytm inst (inst.lastYield + dy) =
      bond_price_ytm inst inst.lastYield ∧
    (bond_duration inst dy).modified_duration = 0 ∧
    (bond_duration inst dy).dv01 = 0 := by
  have hprice : ∀ o1 o2 : ℚ, bond_price_ytm inst o1 = bond_price_ytm inst o2 := by
    intro o1 o2
    simp [bond_price_ytm, hstored]
  have hmd : (bond_duration inst dy).modified_duration = 0 := by
    simp [bond_duration, hprice (inst.lastYield - dy) (inst.lastYield + dy)]
  refine ⟨hprice _ _, hprice _ _, hmd, ?_⟩
  simp [bond_duration] at hmd ⊢
  simp [hmd]

/-- C9 witness: the theorem applied to the stored-yield bond with bump
0.01. -/
theorem C9_stored_ytm_zero_duration_witness :
    bond_price_ytm storedBond (storedBond.lastYield - 1 / 100) =
      bond_price_ytm storedBond storedBond.lastYield ∧
    bond_price_ytm storedBond (storedBond.lastYield + 1 / 100) =
      bond_price_ytm storedBond storedBond.lastYield ∧
    (bond_duration storedBond (1 / 100)).modified_duration = 0 ∧
    (bond_duration storedBond (1 / 100)).dv01 = 0 :=
  C9_stored_ytm_zero_duration storedBond (1 / 100) (3 / 100) rfl

/-! ## Claim C10 — zero whole coupon periods -/

/-- C10 (confirmed). For an instrument with
`0 ≤ years_to_maturity × coupon_frequency < 1` the truncated period count
is zero, the coupon sum is empty and `bond_price_ytm` returns exactly
`face_value` for every yield: the price is constant in yield at this
edge. -/
theorem C10_zero_periods_price_is_face (inst : Instrument) (y : ℚ)
    (h0 : 0 ≤ inst.yearsToMaturity * (inst.couponFrequency : ℚ))
    (h1 : inst.yearsToMaturity * (inst.couponFrequency : ℚ) < 1) :
    bond_price_ytm inst y = inst.faceValue := by
  have hfloor : pyInt (inst.yearsToMaturity * (inst.couponFrequency : ℚ)) = 0 := by
    rw [pyInt, if_pos h0]
    exact Int.floor_eq_zero_iff.mpr (Set.mem_Ico.mpr ⟨h0, h1⟩)
  simp [bond_price_ytm, presentValue, hfloor]

/-- C10 witness: the short bond (`4/5` of a period) priced at two distinct
yields, both returning face value. -/
theorem C10_zero_periods_price_is_face_witness :
    bond_price_ytm shortBond (1 / 100) = 100 ∧
    bond_price_ytm shortBond (1 / 5) = 100 :=
  ⟨C10_zero_periods_price_is_face shortBond (1 / 100)
      (by norm_num [shortBond]) (by norm_num [shortBond]),
    C10_zero_periods_price_is_face shortBond (1 / 5)
      (by norm_num [shortBond]) (by norm_num [shortBond])⟩

/-! ## Claims C2 and C3 — VaR reporting and Expected Shortfall -/

theorem calculate_loss_varType_def (nDay : ℕ) (p : ℚ) (pnl : List ℚ) :
    calculate_loss .varType nDay p pnl =
      (quantileLinear (lossDistribution nDay pnl) (1 - p),
        (lossDistribution nDay pnl).filter (fun x =>
          x = closestValue
            (quantileLinear (lossDistribution nDay pnl) (1 - p))
            (lossDistribution nDay pnl))) := rfl

theorem calculate_loss_es_def (nDay : ℕ) (p : ℚ) (pnl : List ℚ) :
    calculate_loss .expectedShortfall nDay p pnl =
      (meanQ ((lossDistribution nDay pnl).filter (fun x =>
          x ≤ closestValue
            (quantileLinear (lossDistribution nDay pnl) (1 - p))
            (lossDistribution nDay pnl))),
        (lossDistribution nDay pnl).filter (fun x =>
          x = closestValue
            (quantileLinear (lossDistribution nDay pnl) (1 - p))
            (lossDistribution nDay pnl))) := rfl

/-- C2 (counterexample). On the PnL series `[0, 8]` at percentile 0.75 the
empirical 0.25-quantile is 2; the realized observation nearest to it is 0;
the value `calculate_loss` reports for the VaR approach is 2 — the raw
quantile, not the realized observation, and not an element of the loss
distribution at all. -/
theorem C2_var_reports_raw_quantile_cex :
    (calculate_loss .varType 1 (3 / 4) [0, 8]).1 = 2 ∧
    closestValue 2 [0, 8] = 0 ∧
    (2 : ℚ) ≠ 0 ∧
    (2 : ℚ) ∉ ([0, 8] : List ℚ) := by
  refine ⟨?_, ?_, by norm_num, by norm_num⟩
  · rw [calculate_loss_varType_def]
    norm_num [lossDistribution, quantileLinear, sortQ, insertSorted]
  · norm_num [closestValue, abs_of_nonneg, abs_of_nonpos]

/-- C2 (amended, proved). For the VaR approach, `calculate_loss` reports
the raw empirical `(1−p)`-quantile of the loss distribution; the realized
observation nearest to that quantile is an element of the distribution and
is used only to select the supporting-evidence rows, which are nonempty
and all carry exactly that realized value. -/
theorem C2_var_amended (nDay : ℕ) (p : ℚ) (pnl : List ℚ)
    (hne : lossDistribution nDay pnl ≠ []) :
    (calculate_loss .varType nDay p pnl).1 =
      quantileLinear (lossDistribution nDay pnl) (1 - p) ∧
    closestValue (quantileLinear (lossDistribution nDay pnl) (1 - p))
        (lossDistribution nDay pnl) ∈ lossDistribution nDay pnl ∧
    (calculate_loss .varType nDay p pnl).2 ≠ [] ∧
    ∀ r ∈ (calculate_loss .varType nDay p pnl).2,
      r = closestValue (quantileLinear (lossDistribution nDay pnl) (1 - p))
        (lossDistribution nDay pnl) := by
  have hc :
      closestValue (quantileLinear (lossDistribution nDay pnl) (1 - p))
        (lossDistribution nDay pnl) ∈ lossDistribution nDay pnl :=
    closestValue_mem _ _ hne
  rw [calculate_loss_varType_def]
  refine ⟨rfl, hc, ?_, ?_⟩
  · exact List.ne_nil_of_mem (List.mem_filter.mpr ⟨hc, by simp⟩)
  · intro r hr
    simpa using (List.mem_filter.mp hr).2

/-- C2 witness: the amended theorem applied to the series `[0, 8]` at
percentile 0.75. -/
theorem C2_var_amended_witness :
    (calculate_loss .varType 1 (3 / 4) [0, 8]).1 =
      quantileLinear (lossDistribution 1 [0, 8]) (1 - 3 / 4) ∧
    closestValue (quantileLinear (lossDistribution 1 [0, 8]) (1 - 3 / 4))
        (lossDistribution 1 [0, 8]) ∈ lossDistribution 1 [0, 8] ∧
    (calculate_loss .varType 1 (3 / 4) [0, 8]).2 ≠ [] ∧
    ∀ r ∈ (calculate_loss .varType 1 (3 / 4) [0, 8]).2,
      r = closestValue (quantileLinear (lossDistribution 1 [0, 8]) (1 - 3 / 4))
        (lossDistribution 1 [0, 8]) :=
  C2_var_amended 1 (3 / 4) [0, 8] (by simp [lossDistribution])

/-- C3 (counterexample). On the non-degenerate PnL series `[0, 8, 8, 8]`
at percentile `13/16` the reported VaR (raw quantile) is `9/2`, while the
Expected Shortfall — the mean of all observations ≤ the nearest realized
observation 8 — is 6: in signed-loss terms the ES exceeds the VaR, so
`ExpectedShortfall(p) ≤ VaR(p)` fails on the code. -/
theorem C3_es_dominance_cex :
    (calculate_loss .expectedShortfall 1 (13 / 16) [0, 8, 8, 8]).1 = 6 ∧
    (calculate_loss .varType 1 (13 / 16) [0, 8, 8, 8]).1 = 9 / 2 ∧
    ¬ ((6 : ℚ) ≤ 9 / 2) ∧
    (0 : ℚ) ∈ lossDistribution 1 [0, 8, 8, 8] ∧
    (8 : ℚ) ∈ lossDistribution 1 [0, 8, 8, 8] ∧
    (0 : ℚ) ≠ 8 := by
  have hq : quantileLinear [0, 8, 8, 8] (3 / 16) = 9 / 2 := by
    norm_num [quantileLinear, sortQ, insertSorted]
  have hc : closestValue (9 / 2) [0, 8, 8, 8] = 8 := by
    norm_num [closestValue, abs_of_nonneg, abs_of_nonpos]
  refine ⟨?_, ?_, by norm_num, by simp [lossDistribution],
    by simp [lossDistribution], by norm_num⟩
  · rw [calculate_loss_es_def]
    norm_num [lossDistribution, hq, hc, meanQ, List.filter_cons,
      decide_eq_true_eq]
  · rw [calculate_loss_varType_def]
    norm_num [lossDistribution, quantileLinear, sortQ, insertSorted]

/-- C3 (amended, proved). The Expected Shortfall equals the mean of all
observations ≤ the VaR observation's value (the realized observation
nearest the raw quantile), and never exceeds that realized value; the
dominance `ES(p) ≤ VaR(p)` against the reported raw-quantile VaR is what
fails (see the counterexample). -/
theorem C3_es_amended (nDay : ℕ) (p : ℚ) (pnl : List ℚ)
    (hne : lossDistribution nDay pnl ≠ []) :
    (calculate_loss .expectedShortfall nDay p pnl).1 =
      meanQ ((lossDistribution nDay pnl).filter (fun x =>
        x ≤ closestValue
          (quantileLinear (lossDistribution nDay pnl) (1 - p))
          (lossDistribution nDay pnl))) ∧
    (calculate_loss .expectedShortfall nDay p pnl).1 ≤
      closestValue (quantileLinear (lossDistribution nDay pnl) (1 - p))
        (lossDistribution nDay pnl) := by
  have hc :
      closestValue (quantileLinear (lossDistribution nDay pnl) (1 - p))
        (lossDistribution nDay pnl) ∈ lossDistribution nDay pnl :=
    closestValue_mem _ _ hne
  rw [calculate_loss_es_def]
  refine ⟨rfl, ?_⟩
  apply meanQ_le_of_forall_le
  · exact List.ne_nil_of_mem (List.mem_filter.mpr ⟨hc, by simp⟩)
  · intro x hx
    simpa using (List.mem_filter.mp hx).2

/-- C3 witness: the amended theorem applied to the series `[0, 8, 8, 8]`
at percentile `13/16`. -/
theorem C3_es_amended_witness :
    (calculate_loss .expectedShortfall 1 (13 / 16) [0, 8, 8, 8]).1 =
      meanQ ((lossDistribution 1 [0, 8, 8, 8]).filter (fun x =>
        x ≤ closestValue
          (quantileLinear (lossDistribution 1 [0, 8, 8, 8]) (1 - 13 / 16))
          (lossDistribution 1 [0, 8, 8, 8]))) ∧
    (calculate_loss .expectedShortfall 1 (13 / 16) [0, 8, 8, 8]).1 ≤
      closestValue
        (quantileLinear (lossDistribution 1 [0, 8, 8, 8]) (1 - 13 / 16))
        (lossDistribution 1 [0, 8, 8, 8]) :=
  C3_es_amended 1 (13 / 16) [0, 8, 8, 8] (by simp [lossDistribution])

/-! ## Claim C6 — price monotonicity in yield -/

/-- C6 (counterexample). `shortBond` has positive face value and
nonnegative coupon, yet `bond_price_ytm` returns the same price (100) at
the yields 0.01 < 0.02: the price is not strictly decreasing for every
bond with positive face value and nonnegative coupon, because the
truncated period count can be zero. -/
theorem C6_strict_decrease_cex :
    0 < shortBond.faceValue ∧ 0 ≤ shortBond.couponRate ∧
    (1 : ℚ) / 100 < 2 / 100 ∧
    bond_price_ytm shortBond (1 / 100) = bond_price_ytm shortBond (2 / 100) ∧
    ¬ bond_price_ytm shortBond (2 / 100) < bond_price_ytm shortBond (1 / 100) := by
  have h1 : bond_price_ytm shortBond (1 / 100) = 100 := by
    norm_num [bond_price_ytm, presentValue, pyInt, shortBond]
  have h2 : bond_price_ytm shortBond (2 / 100) = 100 := by
    norm_num [bond_price_ytm, presentValue, pyInt, shortBond]
  refine ⟨by norm_num [shortBond], by norm_num [shortBond], by norm_num,
    ?_, ?_⟩
  · rw [h1, h2]
  · rw [h1, h2]
    exact lt_irrefl _

/-- C6 (amended, proved). For every bond with positive face value,
nonnegative coupon, positive coupon frequency, no stored yield and at
least one whole coupon period after truncation, `bond_price_ytm` is
strictly decreasing in yield wherever the per-period discount base is
positive. -/
theorem C6_price_strictly_decreasing (inst : Instrument)
    (hstored : inst.yieldToMaturityStored = none)
    (hf : 0 < inst.couponFrequency) (hc : 0 ≤ inst.couponRate)
    (hF : 0 < inst.faceValue)
    (hN : 1 ≤ pyInt (inst.yearsToMaturity * (inst.couponFrequency : ℚ)))
    {y1 y2 : ℚ} (h1 : 0 < 1 + y1 / (inst.couponFrequency : ℚ))
    (h12 : y1 < y2) :
    bond_price_ytm inst y2 < bond_price_ytm inst y1 :=
  bond_price_ytm_strictAnti inst hstored hf hc hF hN h1 h12

/-- C6 witness: the 2-year bond priced at yields 0.01 < 0.02. -/
theorem C6_price_strictly_decreasing_witness :
    bond_price_ytm bond2y (2 / 100) < bond_price_ytm bond2y (1 / 100) :=
  C6_price_strictly_decreasing bond2y rfl (by norm_num [bond2y])
    (by norm_num [bond2y]) (by norm_num [bond2y])
    (by norm_num [pyInt, bond2y]) (by norm_num [bond2y]) (by norm_num)

/-! ## Claim C5 — price/yield round-trip -/

/-- C5 (counterexample). For the short bond (zero whole coupon periods)
`bond_price_ytm` returns the face value 100 for every yield, so after
`last_price := price_from_yield(instrument, y)` the instrument record is
the same for `y = 0.001` and `y = 0.2`: no deterministic yield solver —
scipy's Newton iteration included — can return a value within 1e-8 of `y`
for every `y` in the claimed range. -/
theorem C5_round_trip_cex :
    ¬ ∃ solve : Instrument → ℚ,
      ∀ y : ℚ, 1 / 1000 ≤ y → y ≤ 1 / 5 →
        |solve { shortBond with lastPrice := bond_price_ytm shortBond y } - y|
          ≤ 1 / 10 ^ 8 := by
  rintro ⟨solve, h⟩
  have hp : ∀ y : ℚ, bond_price_ytm shortBond y = 100 := fun y => by
    norm_num [bond_price_ytm, presentValue, pyInt, shortBond]
  have h1 := h (1 / 1000) le_rfl (by norm_num)
  have h2 := h (1 / 5) (by norm_num) le_rfl
  rw [hp (1 / 1000)] at h1
  rw [hp (1 / 5)] at h2
  have e1 := abs_le.mp h1
  have e2 := abs_le.mp h2
  norm_num at e1 e2
  linarith [e1.1, e1.2, e2.1, e2.2]

theorem pyInt_natCast (n : ℕ) : pyInt (n : ℚ) = n := by
  rw [pyInt, if_pos (by positivity)]
  exact_mod_cast Int.floor_natCast n

theorem calc_ytm_objective_eq (inst : Instrument) (ytm : ℚ) :
    calc_ytm_objective inst ytm =
      inst.lastPrice -
        presentValue (inst.couponRate * inst.faceValue / (inst.couponFrequency : ℚ))
          inst.faceValue (ytm / (inst.couponFrequency : ℚ))
          (pyInt inst.yearsToMaturity * (inst.couponFrequency : ℤ)) := rfl

/-- C5 (amended, proved). For an instrument without a stored yield, with
positive face value, nonnegative coupon, positive frequency and an
integer number `k ≥ 1` of years to maturity — so `bond_price_ytm` and the
solver's objective agree on the period count `k · freq ≥ 1` — the
round-trip determines the yield exactly: after
`last_price := bond_price_ytm(inst, y)`, any admissible root `ŷ` of the
`calculate_ytm` objective equals `y`, hence is within every tolerance of
`y`. For instruments with zero whole periods no solver can recover the
yield (see the counterexample). -/
theorem C5_round_trip_amended (inst : Instrument) (k : ℕ) (y yhat : ℚ)
    (hstored : inst.yieldToMaturityStored = none)
    (hf : 0 < inst.couponFrequency) (hc : 0 ≤ inst.couponRate)
    (hF : 0 < inst.faceValue) (hk : inst.yearsToMaturity = (k : ℚ))
    (hk1 : 1 ≤ k)
    (hy : 0 < 1 + y / (inst.couponFrequency : ℚ))
    (hyhat : 0 < 1 + yhat / (inst.couponFrequency : ℚ))
    (hroot : calc_ytm_objective
      { inst with lastPrice := bond_price_ytm inst y } yhat = 0) :
    yhat = y := by
  have hsteps : pyInt (inst.yearsToMaturity * (inst.couponFrequency : ℚ)) =
      (k : ℤ) * (inst.couponFrequency : ℤ) := by
    rw [hk]
    have hcast : ((k : ℚ)) * (inst.couponFrequency : ℚ) =
        ((k * inst.couponFrequency : ℕ) : ℚ) := by push_cast; ring
    rw [hcast, pyInt_natCast]
    push_cast
    ring
  have hperiods : pyInt inst.yearsToMaturity * (inst.couponFrequency : ℤ) =
      (k : ℤ) * (inst.couponFrequency : ℤ) := by
    rw [hk, pyInt_natCast]
  have hN : 1 ≤ pyInt (inst.yearsToMaturity * (inst.couponFrequency : ℚ)) := by
    rw [hsteps]
    have hk' : 1 ≤ (k : ℤ) := by exact_mod_cast hk1
    have hf' : 1 ≤ (inst.couponFrequency : ℤ) := by exact_mod_cast hf
    nlinarith
  have hro : bond_price_ytm inst y -
      presentValue (inst.couponRate * inst.faceValue / (inst.couponFrequency : ℚ))
        inst.faceValue (yhat / (inst.couponFrequency : ℚ))
        (pyInt inst.yearsToMaturity * (inst.couponFrequency : ℤ)) = 0 := hroot
  have hby : bond_price_ytm inst yhat =
      presentValue (inst.couponRate * inst.faceValue / (inst.couponFrequency : ℚ))
        inst.faceValue (yhat / (inst.couponFrequency : ℚ))
        (pyInt (inst.yearsToMaturity * (inst.couponFrequency : ℚ))) := by
    simp [bond_price_ytm, hstored]
  have heq : bond_price_ytm inst yhat = bond_price_ytm inst y := by
    rw [hby, hsteps]
    rw [hperiods] at hro
    linarith [hro]
  rcases lt_trichotomy yhat y with hlt | heq2 | hgt
  · exfalso
    have := bond_price_ytm_strictAnti inst hstored hf hc hF hN hyhat hlt
    rw [heq] at this
    exact lt_irrefl _ this
  · exact heq2
  · exfalso
    have := bond_price_ytm_strictAnti inst hstored hf hc hF hN hy hgt
    rw [heq] at this
    exact lt_irrefl _ this

/-- C5 witness: the amended theorem applied to the 2-year bond at
`y = ŷ = 0.06`, whose priced record solves the objective exactly. -/
theorem C5_round_trip_amended_witness :
    calc_ytm_objective
      { bond2y with lastPrice := bond_price_ytm bond2y (3 / 50) } (3 / 50) = 0 ∧
    (3 / 50 : ℚ) = 3 / 50 := by
  have hroot : calc_ytm_objective
      { bond2y with lastPrice := bond_price_ytm bond2y (3 / 50) } (3 / 50) = 0 := by
    rw [calc_ytm_objective_eq]
    have hlp : ({ bond2y with lastPrice := bond_price_ytm bond2y (3 / 50) } :
        Instrument).lastPrice = bond_price_ytm bond2y (3 / 50) := rfl
    rw [hlp]
    norm_num [bond_price_ytm, presentValue, pyInt, bond2y]
  exact ⟨hroot,
    C5_round_trip_amended bond2y 2 (3 / 50) (3 / 50) rfl (by norm_num [bond2y])
      (by norm_num [bond2y]) (by norm_num [bond2y]) (by norm_num [bond2y])
      (by norm_num) (by norm_num [bond2y]) (by norm_num [bond2y]) hroot⟩

/-! ## Claim C7 — cashflow schedule ordering and final cashflow -/

/-- C7 (counterexample). On the 2-year semiannual bond the maturity date
coincides with the last coupon date, so the schedule's date column
`[6, 12, 18, 24, 24]` is not strictly increasing, and the last cashflow is
the bare redemption `face_value = 100`, not face value plus the final
coupon (neither the code's $5 coupon nor the spec's $2.50). -/
theorem C7_schedule_cex :
    ¬ List.Chain' (· < ·) ((generate_cashflows bond2y).map Prod.fst) ∧
    (generate_cashflows bond2y).getLast? = some (24, 100) ∧
    (100 : ℚ) ≠ 100 + 5 ∧ (100 : ℚ) ≠ 100 + 5 / 2 := by
  have hsch : generate_cashflows bond2y =
      [(6, 5), (12, 5), (18, 5), (24, 5), (24, 100)] := by
    norm_num [generate_cashflows, couponDates_step, couponDates_stop, pyInt,
      bond2y]
  rw [hsch]
  refine ⟨?_, rfl, by norm_num, by norm_num⟩
  intro hchain
  simp [List.chain'_cons] at hchain

/-- C7 (amended, proved). For every instrument with a positive month step
(coupon frequency at most 12), the schedule's dates are non-decreasing —
strictness fails exactly when the final coupon shares the maturity date —
and the last cashflow is `(maturity_date, face_value)`: the redemption
alone, the final coupon being a separate row. -/
theorem C7_schedule_amended (inst : Instrument)
    (hstep : 0 < pyInt (12 / (inst.couponFrequency : ℚ))) :
    List.Chain' (· ≤ ·) ((generate_cashflows inst).map Prod.fst) ∧
    (generate_cashflows inst).getLast? =
      some (inst.maturityDate, inst.faceValue) := by
  constructor
  · have hmap : (generate_cashflows inst).map Prod.fst =
        couponDates inst.maturityDate (pyInt (12 / (inst.couponFrequency : ℚ)))
          inst.nextCouponDate ++ [inst.maturityDate] := by
      simp only [generate_cashflows, List.map_append, List.map_map,
        List.map_cons, List.map_nil]
      rw [show (Prod.fst ∘ fun d : ℤ =>
          (d, inst.faceValue * inst.couponRate)) = id from rfl, List.map_id]
    rw [hmap, List.chain'_append]
    refine ⟨List.Chain'.imp (fun a b hab => le_of_lt hab)
      (couponDates_chain _ _ _ hstep), List.chain'_singleton _, ?_⟩
    intro x hx y hy
    simp only [List.head?_cons, Option.mem_def, Option.some.injEq] at hy
    subst hy
    obtain ⟨hne, hxeq⟩ := List.mem_getLast?_eq_getLast hx
    exact couponDates_le _ _ _ x (hxeq ▸ List.getLast_mem hne)
  · have hview : generate_cashflows inst =
        (couponDates inst.maturityDate (pyInt (12 / (inst.couponFrequency : ℚ)))
            inst.nextCouponDate).map
          (fun d => (d, inst.faceValue * inst.couponRate)) ++
          [(inst.maturityDate, inst.faceValue)] := rfl
    rw [hview, List.getLast?_concat]

/-- C7 witness: the amended theorem applied to the 2-year bond. -/
theorem C7_schedule_amended_witness :
    List.Chain' (· ≤ ·) ((generate_cashflows bond2y).map Prod.fst) ∧
    (generate_cashflows bond2y).getLast? = some (24, 100) :=
  C7_schedule_amended bond2y (by norm_num [pyInt, bond2y])

/-! ## Claim C8 — no domain check in the sensitivity calculation -/

/-- C8 (counterexample). The code defines no DomainError anywhere: for the
bond with `last_price = -100` the sensitivity calculation happily returns
numeric values — here a strictly negative modified duration — instead of
failing. -/
theorem C8_no_domain_error_cex :
    negBond.lastPrice < 0 ∧
    (bond_duration negBond (1 / 100)).modified_duration < 0 := by
  have h4 : ((4 : ℤ)).toNat = 4 := rfl
  constructor
  · norm_num [negBond, bond2y]
  · norm_num [bond_duration, bond_price_ytm, presentValue, pyInt, negBond,
      bond2y, h4, Finset.sum_range_succ, Finset.sum_range_zero]

/-- C8 (amended, proved). `bond_duration` performs no validation of
`last_price`: for a negative price the bump-and-reprice formulas are still
evaluated, yielding the sign-flipped modified duration and the unchanged
DV01 of the positive-price instrument — numeric values, never an error. -/
theorem C8_no_validation_amended (inst : Instrument) (dy : ℚ)
    (hneg : inst.lastPrice < 0) :
    (bond_duration inst dy).modified_duration =
      -((bond_duration { inst with lastPrice := -inst.lastPrice }
          dy).modified_duration) ∧
    (bond_duration inst dy).dv01 =
      (bond_duration { inst with lastPrice := -inst.lastPrice } dy).dv01 := by
  have hbp : ∀ o : ℚ,
      bond_price_ytm { inst with lastPrice := -inst.lastPrice } o =
        bond_price_ytm inst o := fun o => rfl
  constructor
  · simp only [bond_duration, hbp]
    have hden : (2 : ℚ) * -inst.lastPrice * dy = -(2 * inst.lastPrice * dy) := by
      ring
    rw [hden, div_neg, neg_neg]
  · simp only [bond_duration, hbp]
    have hden : (2 : ℚ) * -inst.lastPrice * dy = -(2 * inst.lastPrice * dy) := by
      ring
    rw [hden, div_neg]
    ring

/-- C8 witness: the amended theorem applied to the negative-price bond
with bump 0.01. -/
theorem C8_no_validation_amended_witness :
    (bond_duration negBond (1 / 100)).modified_duration =
      -((bond_duration { negBond with lastPrice := -negBond.lastPrice }
          (1 / 100)).modified_duration) ∧
    (bond_duration negBond (1 / 100)).dv01 =
      (bond_duration { negBond with lastPrice := -negBond.lastPrice }
        (1 / 100)).dv01 :=
  C8_no_validation_amended negBond (1 / 100) (by norm_num [negBond, bond2y])
